import Mathlib

/-!
# gst-omapfb: the omapfb video sink (src/omapfb.c)

A shallow embedding of the page pool (get_page), the page rotation (render,
buffer_alloc), the session set-up (start, setup, setcaps) and the overlay
geometry computed in setup, followed by the properties proved about them.

Conventions of the embedding.

* A C pointer into the array self->pages is the index of the page it points
  to; NULL is none.  Addresses (page.buf, the data pointer of a GstBuffer) are
  natural numbers.
* The target is a 32-bit ARM: int and unsigned are 32 bits wide.  Values of
  type int are Int, values of type unsigned are Nat, and every arithmetic
  operation reduces its result into the range of its C type.  Signed overflow
  is undefined in C; the embedding gives it the two's complement result.
* An operation returns none where the C code would fault: a read outside the
  pages array, a NULL page dereference, a division by zero.
* The device (the kernel behind ioctl, mmap, open and close) is a parameter.
  The sink carries one ghost field, ioctls, listing the requests issued so far;
  the return value of a request may depend on how many were issued before it.
* Logging (pr_err, pr_info) and the bytes moved by memcpy are not observed by
  any property below and are left out.
-/

namespace Omapfb

/-! ## C arithmetic -/

/-- The number of values of a 32-bit word. -/
def WORD : Nat := 4294967296

/-- The result of an int operation: x reduced to the range -2^31 .. 2^31-1. -/
def to_int (x : Int) : Int := (x + 2147483648) % 4294967296 - 2147483648

/-- Conversion of an int to unsigned: x modulo 2^32. -/
def to_unsigned (x : Int) : Nat := (x % 4294967296).toNat

/-- int * int. -/
def imul (a b : Int) : Int := to_int (a * b)

/-- int / int, rounding toward zero; none when the divisor is zero. -/
def idiv (a b : Int) : Option Int := if b = 0 then none else some (to_int (Int.tdiv a b))

/-- unsigned + unsigned. -/
def uadd (a b : Nat) : Nat := (a + b) % WORD

/-- unsigned - unsigned. -/
def usub (a b : Nat) : Nat := (a % WORD + (WORD - b % WORD)) % WORD

/-- unsigned * unsigned. -/
def umul (a b : Nat) : Nat := (a * b) % WORD

/-- unsigned / unsigned; none when the divisor is zero. -/
def udiv (a b : Nat) : Option Nat := if b % WORD = 0 then none else some (a % WORD / (b % WORD))

/-- ROUND_UP(num, scale) with num unsigned and scale an int constant:
`(((num) + ((scale) - 1)) & ~((scale) - 1))`, the int operands converted to
unsigned by the usual arithmetic conversions. -/
def ROUND_UP (num : Nat) (scale : Int) : Nat :=
  (uadd num (to_unsigned (to_int (scale - 1)))) &&& (to_unsigned (to_int (-(to_int (scale - 1)) - 1)))

/-! ## Overlay geometry (setup, lines 218-233) -/

/-- The part of omapfb_plane_info that setup computes. -/
structure geometry where
  out_width : Nat
  out_height : Nat
  pos_x : Nat
  pos_y : Nat
deriving DecidableEq, Repr

/-- The first candidate of setup, "scale to width": the value assigned to
out_height on line 220. -/
def scale_to_width (width height par_n par_d : Int) (xres : Nat) : Option Nat := do
  let half ← idiv (imul width par_n) 2
  udiv (uadd (umul (to_unsigned (imul height par_d)) xres) (to_unsigned half))
    (to_unsigned (imul width par_n))

/-- The second candidate of setup, "scale to height": the value assigned to
out_width on line 224. -/
def scale_to_height (width height par_n par_d : Int) (yres : Nat) : Option Nat := do
  let half ← idiv (imul height par_d) 2
  udiv (uadd (umul (to_unsigned (imul width par_n)) yres) (to_unsigned half))
    (to_unsigned (imul height par_d))

/-- Lines 218-225 of setup: out_width and out_height before they are rounded
up to even. -/
def setup_scale (width height par_n par_d : Int) (xres yres : Nat) : Option (Nat × Nat) := do
  /- scale to width -/
  let out_width := xres
  let out_height ← scale_to_width width height par_n par_d xres
  if out_height > yres then
    /- scale to height -/
    let out_height := yres
    let out_width ← scale_to_height width height par_n par_d yres
    pure (out_width, out_height)
  else
    pure (out_width, out_height)

/-- Lines 218-233 of setup: the size and position written to plane_info. -/
def setup_geometry (width height par_n par_d : Int) (xres yres : Nat) : Option geometry := do
  let (out_width, out_height) ← setup_scale width height par_n par_d xres yres
  let out_width := ROUND_UP out_width 2
  let out_height := ROUND_UP out_height 2
  pure {
    pos_x := (usub xres out_width) / 2
    pos_y := (usub yres out_height) / 2
    out_width := out_width
    out_height := out_height }

/-! ## Data model -/

/-- The fields of struct fb_var_screeninfo (linux/fb.h) that the sink uses. -/
structure fb_var_screeninfo where
  xres : Nat
  yres : Nat
  xres_virtual : Nat
  yres_virtual : Nat
  xoffset : Nat
  yoffset : Nat
  nonstd : Nat
deriving DecidableEq, Repr

/-- The struct omapfb_mem_info of linux/omapfb.h. -/
structure omapfb_mem_info where
  size : Nat
  type : Nat
deriving DecidableEq, Repr

/-- The fields of struct omapfb_plane_info (linux/omapfb.h) that the sink uses. -/
structure omapfb_plane_info where
  pos_x : Nat
  pos_y : Nat
  enabled : Nat
  out_width : Nat
  out_height : Nat
deriving DecidableEq, Repr

/-- The struct page of omapfb.c. -/
structure page where
  yoffset : Nat
  buf : Nat
  used : Bool
deriving DecidableEq, Repr

/-- The requests the sink issues with ioctl.  The pan request carries the
yoffset it asks for and the update-window request the width and height of the
window; the arguments of the other requests are not recorded. -/
inductive ioctl_request where
  | FBIOGET_VSCREENINFO
  | FBIOPUT_VSCREENINFO
  | FBIOPAN_DISPLAY (yoffset : Nat)
  | OMAPFB_SETUP_PLANE
  | OMAPFB_QUERY_PLANE
  | OMAPFB_SETUP_MEM
  | OMAPFB_SET_COLOR_KEY
  | OMAPFB_SET_UPDATE_MODE
  | OMAPFB_UPDATE_WINDOW (width height : Nat)
  | OMAPFB_WAITFORVSYNC
deriving DecidableEq, Repr

/-- The struct gst_omapfb_sink of omapfb.c (without the GstBaseSink parent).
pages is the array that setup allocates, empty before setup; cur_page and
old_page are indices into it.  nr_pages is an int in C that only ever holds 4.
ioctls is a ghost field: the requests issued so far, oldest first. -/
structure gst_omapfb_sink where
  varinfo : fb_var_screeninfo
  overlay_info : fb_var_screeninfo
  mem_info : omapfb_mem_info
  plane_info : omapfb_plane_info
  overlay_fd : Int
  framebuffer : Nat
  enabled : Bool
  manual_update : Bool
  pages : List page
  nr_pages : Nat
  cur_page : Option Nat
  old_page : Option Nat
  ioctls : List ioctl_request
deriving DecidableEq, Repr

/-- The caps the pipeline negotiates: the first structure of a GstCaps, with its
width and height and, when present, its pixel-aspect-ratio fraction. -/
structure GstCaps where
  width : Int
  height : Int
  par : Option (Int × Int)
deriving DecidableEq, Repr

/-- A GstBuffer: its data pointer, its size and its caps. -/
structure GstBuffer where
  data : Nat
  size : Nat
  caps : GstCaps
deriving DecidableEq, Repr

/-- The values of GstFlowReturn. -/
inductive GstFlowReturn where
  | GST_FLOW_OK
  | GST_FLOW_NOT_LINKED
  | GST_FLOW_WRONG_STATE
  | GST_FLOW_UNEXPECTED
  | GST_FLOW_NOT_NEGOTIATED
  | GST_FLOW_ERROR
  | GST_FLOW_NOT_SUPPORTED
deriving DecidableEq, Repr

/-- The kernel side of the sink.  ioctl_ret n r is the return value of request
r when n requests were issued before it.  mmap_ret is what mmap returns.  The
remaining fields are what start obtains: the descriptors open returns for
/dev/fb0 and /dev/fb1, the return value of close, and the structures the GET
and QUERY requests fill in. -/
structure device where
  ioctl_ret : Nat → ioctl_request → Int
  mmap_ret : Nat
  open_fb0 : Int
  open_fb1 : Int
  close_ret : Int
  screen : fb_var_screeninfo
  overlay : fb_var_screeninfo
  plane : omapfb_plane_info

/-- The value MAP_FAILED, (void * ) -1. -/
def MAP_FAILED : Nat := 4294967295

/-- Value of OMAPFB_MEMTYPE_SDRAM in linux/omapfb.h. -/
def OMAPFB_MEMTYPE_SDRAM : Nat := 0

/-- Value of OMAPFB_COLOR_YUV422 in linux/omapfb.h. -/
def OMAPFB_COLOR_YUV422 : Nat := 1

/-- Modelled from the spec: GST_ROUND_UP_2 is a GStreamer macro that is not in
the repository; the spec calls it round_up_even. -/
def GST_ROUND_UP_2 (num : Int) : Int := to_int (to_int (num + 1) - to_int (num + 1) % 2)

/-- One ioctl call: the request is appended to the ghost list and the device
decides the return value. -/
def ioctl (dev : device) (self : gst_omapfb_sink) (request : ioctl_request) :
    Int × gst_omapfb_sink :=
  (dev.ioctl_ret self.ioctls.length request, { self with ioctls := self.ioctls ++ [request] })

/-! ## update and get_page -/

/-- The function update: an update-window request for the rectangle (0, 0, varinfo.xres,
varinfo.yres).  It is void: the return value of the ioctl is dropped. -/
def update (dev : device) (self : gst_omapfb_sink) : gst_omapfb_sink :=
  let w := self.varinfo.xres
  let h := self.varinfo.yres
  (ioctl dev self (.OMAPFB_UPDATE_WINDOW w h)).2

/-- The for loop of get_page from index i with n iterations left.  The result is
the page the loop leaves in the variable page (none is NULL). -/
def get_page_scan (self : gst_omapfb_sink) : Nat → Nat → Option (Option Nat)
  | _, 0 => some none
  | i, n + 1 =>
    if self.cur_page = some i then get_page_scan self (i + 1) n
    else if self.old_page = some i then get_page_scan self (i + 1) n
    else
      match self.pages[i]? with
      | none => none
      | some p => if !p.used then some (some i) else get_page_scan self (i + 1) n

/-- The function get_page: the page it returns and the sink afterwards. -/
def get_page (self : gst_omapfb_sink) : Option (Option Nat × gst_omapfb_sink) := do
  let page ← get_page_scan self 0 self.nr_pages
  /- old page needs a vsync -/
  let page ←
    match page, self.old_page with
    | none, some old => do
      let p ← self.pages[old]?
      pure (if !p.used then some old else none)
    | _, _ => pure page
  match page with
  | some i => do
    let p ← self.pages[i]?
    pure (some i, { self with pages := self.pages.set i { p with used := true } })
  | none => pure (none, self)

/-! ## setup, buffer_alloc, setcaps, start -/

/-- The array calloc returns in setup: n zeroed pages. -/
def calloc_pages (n : Nat) : List page := List.replicate n { yoffset := 0, buf := 0, used := false }

/-- The for loop at the end of setup from index i with n iterations left. -/
def setup_pages (self : gst_omapfb_sink) (framesize : Nat) : Nat → Nat → Option gst_omapfb_sink
  | _, 0 => some self
  | i, n + 1 =>
    match self.pages[i]? with
    | none => none
    | some p =>
      let p := { p with yoffset := umul i self.overlay_info.yres }
      let p := { p with buf := self.framebuffer + umul i framesize }
      setup_pages { self with pages := self.pages.set i p } framesize (i + 1) n

/-- The function setup: its return value and the sink afterwards. -/
def setup (dev : device) (self : gst_omapfb_sink) (caps : GstCaps) :
    Option (Bool × gst_omapfb_sink) := do
  let width := caps.width
  let height := caps.height
  let (par_n, par_d) :=
    match caps.par with
    | some (n, d) => (n, d)
    | none => (1, 1)
  let self := { self with plane_info := { self.plane_info with enabled := 0 } }
  let (r, self) := ioctl dev self .OMAPFB_SETUP_PLANE
  if r ≠ 0 then pure (false, self) else
  let framesize := to_unsigned (imul (imul (GST_ROUND_UP_2 width) height) 2)
  let self := { self with
    mem_info := { type := OMAPFB_MEMTYPE_SDRAM, size := umul framesize self.nr_pages } }
  let (r, self) := ioctl dev self .OMAPFB_SETUP_MEM
  if r ≠ 0 then pure (false, self) else
  let self := { self with framebuffer := dev.mmap_ret }
  if self.framebuffer = MAP_FAILED then pure (false, self) else
  let xres := to_unsigned width
  let yres := to_unsigned height
  let self := { self with
    overlay_info := { self.overlay_info with
      xres := xres
      yres := yres
      xres_virtual := xres
      yres_virtual := umul yres self.nr_pages
      xoffset := 0
      yoffset := 0
      nonstd := OMAPFB_COLOR_YUV422 } }
  let (r, self) := ioctl dev self .FBIOPUT_VSCREENINFO
  if r ≠ 0 then pure (false, self) else
  let (_, self) := ioctl dev self .OMAPFB_SET_COLOR_KEY
  let g ← setup_geometry width height par_n par_d self.varinfo.xres self.varinfo.yres
  let self := { self with
    plane_info := { self.plane_info with
      enabled := 1
      pos_x := g.pos_x
      pos_y := g.pos_y
      out_width := g.out_width
      out_height := g.out_height } }
  let (r, self) := ioctl dev self .OMAPFB_SETUP_PLANE
  if r ≠ 0 then pure (false, self) else
  let self := { self with enabled := true }
  /- update_mode = OMAPFB_MANUAL_UPDATE; the request reads the local and does
     not write it, so the comparison that follows is true -/
  let (_, self) := ioctl dev self .OMAPFB_SET_UPDATE_MODE
  let self := { self with manual_update := true }
  let self := { self with pages := calloc_pages self.nr_pages }
  let self ← setup_pages self framesize 0 self.nr_pages
  let self := { self with cur_page := some 0 }
  pure (true, self)

/-- The function buffer_alloc: its return value, the buffer stored in *buf
(none is NULL) and the sink afterwards. -/
def buffer_alloc (dev : device) (self : gst_omapfb_sink) (offset size : Nat) (caps : GstCaps) :
    Option (GstFlowReturn × Option GstBuffer × gst_omapfb_sink) := do
  let _ := offset
  let (ok, self) ← if !self.enabled then setup dev self caps else pure (true, self)
  if !ok then pure (.GST_FLOW_OK, none, self) else
  let (page, self) ← get_page self
  match page with
  | none => pure (.GST_FLOW_OK, none, self)
  | some i => do
    let p ← self.pages[i]?
    let buffer : GstBuffer := { data := p.buf, size := size, caps := caps }
    let self := if some i = self.old_page then (ioctl dev self .OMAPFB_WAITFORVSYNC).2 else self
    pure (.GST_FLOW_OK, some buffer, self)

/-- The function setcaps. -/
def setcaps (dev : device) (self : gst_omapfb_sink) (caps : GstCaps) :
    Option (Bool × gst_omapfb_sink) :=
  if self.enabled then pure (true, self) else setup dev self caps

/-- The function start.  A GET or QUERY request fills in its structure when it
succeeds. -/
def start (dev : device) (self : gst_omapfb_sink) : Bool × gst_omapfb_sink :=
  let self := { self with nr_pages := 4, cur_page := none, old_page := none }
  let fd := dev.open_fb0
  if fd = -1 then (false, self) else
  let (r, self) := ioctl dev self .FBIOGET_VSCREENINFO
  if r ≠ 0 then (false, self) else
  let self := { self with varinfo := dev.screen }
  if dev.close_ret ≠ 0 then (false, self) else
  let self := { self with overlay_fd := dev.open_fb1 }
  if self.overlay_fd = -1 then (false, self) else
  let (r, self) := ioctl dev self .FBIOGET_VSCREENINFO
  if r ≠ 0 then (false, self) else
  let self := { self with overlay_info := dev.overlay }
  let (r, self) := ioctl dev self .OMAPFB_QUERY_PLANE
  if r ≠ 0 then (false, self) else
  let self := { self with plane_info := dev.plane }
  (true, self)

/-! ## render -/

/-- The for loop of render from index i with n iterations left: the first page
whose buf is the data pointer of the buffer. -/
def render_find (self : gst_omapfb_sink) (data : Nat) : Nat → Nat → Option (Option Nat)
  | _, 0 => some none
  | i, n + 1 =>
    match self.pages[i]? with
    | none => none
    | some p => if p.buf = data then some (some i) else render_find self data (i + 1) n

/-- Lines 384-395 of render: the page the frame is shown from, and the sink
after the get_page call of the copy path. -/
def render_page (self : gst_omapfb_sink) (buffer : GstBuffer) :
    Option (Nat × gst_omapfb_sink) := do
  let page ← render_find self buffer.data 0 self.nr_pages
  match page with
  | some i => pure (i, self)
  | none => do
    let (page, self) ← get_page self
    let page ←
      match page with
      | some i => some i
      | none => self.cur_page /- not ok, but last resort -/
    /- memcpy reads page->buf -/
    let _ ← self.pages[page]?
    pure (page, self)

/-- The function render (also installed as preroll): its return value and the
sink afterwards. -/
def render (dev : device) (self : gst_omapfb_sink) (buffer : GstBuffer) :
    Option (GstFlowReturn × gst_omapfb_sink) := do
  let (page, self) ← render_page self buffer
  let p ← self.pages[page]?
  let self :=
    if some page ≠ self.cur_page then
      let self := { self with overlay_info := { self.overlay_info with yoffset := p.yoffset } }
      (ioctl dev self (.FBIOPAN_DISPLAY self.overlay_info.yoffset)).2
    else self
  let self := if self.manual_update then update dev self else self
  let self := { self with old_page := self.cur_page }
  let self := { self with cur_page := some page }
  let self := { self with pages := self.pages.set page { p with used := false } }
  pure (.GST_FLOW_OK, self)

/-! ## Sequences of calls -/

/-- The calls made on a sink once it is set up.  get_page is static; it is
listed so that sequences may also call it on its own. -/
inductive call where
  | buffer_alloc (offset size : Nat) (caps : GstCaps)
  | render (buffer : GstBuffer)
  | get_page
deriving DecidableEq, Repr

/-- The sink after one call. -/
def step (dev : device) (self : gst_omapfb_sink) : call → Option gst_omapfb_sink
  | .buffer_alloc offset size caps => (buffer_alloc dev self offset size caps).map (fun r => r.2.2)
  | .render buffer => (render dev self buffer).map (fun r => r.2)
  | .get_page => (get_page self).map (fun r => r.2)

/-- The sink after a sequence of calls. -/
def run (dev : device) (self : gst_omapfb_sink) : List call → Option gst_omapfb_sink
  | [] => some self
  | c :: cs => (step dev self c).bind (fun s => run dev s cs)

/-! ## A concrete session -/

/-- A sink as g_object_new leaves it: zeroed. -/
def zero_sink : gst_omapfb_sink :=
  { varinfo := ⟨0, 0, 0, 0, 0, 0, 0⟩
    overlay_info := ⟨0, 0, 0, 0, 0, 0, 0⟩
    mem_info := ⟨0, 0⟩
    plane_info := ⟨0, 0, 0, 0, 0⟩
    overlay_fd := 0
    framebuffer := 0
    enabled := false
    manual_update := false
    pages := []
    nr_pages := 0
    cur_page := none
    old_page := none
    ioctls := [] }

/-- A device with a 1024x768 screen on which every call succeeds and the
frame memory is mapped at address 65536. -/
def good_device : device :=
  { ioctl_ret := fun _ _ => 0
    mmap_ret := 65536
    open_fb0 := 3
    open_fb1 := 4
    close_ret := 0
    screen := ⟨1024, 768, 1024, 768, 0, 0, 0⟩
    overlay := ⟨0, 0, 0, 0, 0, 0, 0⟩
    plane := ⟨0, 0, 0, 0, 0⟩ }

/-- The device good_device, except that every pan and every update-window
request fails with -1. -/
def failing_device : device :=
  { good_device with
    ioctl_ret := fun _ r =>
      match r with
      | .FBIOPAN_DISPLAY _ => -1
      | .OMAPFB_UPDATE_WINDOW _ _ => -1
      | _ => 0 }

/-- Caps of a 720x480 stream with square pixels. -/
def caps_720x480 : GstCaps := { width := 720, height := 480, par := some (1, 1) }

/-- Caps of a 640x480 stream with square pixels. -/
def caps_640x480 : GstCaps := { width := 640, height := 480, par := some (1, 1) }

/-- The sink after start on good_device. -/
def started_sink : gst_omapfb_sink := (start good_device zero_sink).2

/-- The sink after start and setup with the 720x480 caps on good_device:
four pages of 691200 bytes from address 65536, page 0 current. -/
def ready_sink : gst_omapfb_sink :=
  { started_sink with
    mem_info := ⟨2764800, 0⟩
    framebuffer := 65536
    overlay_info := ⟨720, 480, 720, 1920, 0, 0, 1⟩
    plane_info := ⟨0, 42, 1, 1024, 684⟩
    enabled := true
    manual_update := true
    pages := [⟨0, 65536, false⟩, ⟨480, 756736, false⟩, ⟨960, 1447936, false⟩, ⟨1440, 2139136, false⟩]
    cur_page := some 0
    ioctls := started_sink.ioctls ++
      [.OMAPFB_SETUP_PLANE, .OMAPFB_SETUP_MEM, .FBIOPUT_VSCREENINFO, .OMAPFB_SET_COLOR_KEY,
       .OMAPFB_SETUP_PLANE, .OMAPFB_SET_UPDATE_MODE] }

/-- A frame the producer wrote into page 1 of ready_sink. -/
def frame_in_page1 : GstBuffer := { data := 756736, size := 691200, caps := caps_720x480 }

/-- A frame in memory that is not a page of ready_sink. -/
def foreign_frame : GstBuffer := { data := 16, size := 691200, caps := caps_720x480 }

/-- A buffer_alloc call for one 720x480 frame. -/
def alloc : call := .buffer_alloc 0 691200 caps_720x480

/-- The sink ready_sink after the calls alloc, render of frame_in_page1, alloc,
alloc: page 1 is current, page 0 is old and pages 2 and 3 are in use. -/
def busy_sink : gst_omapfb_sink :=
  { ready_sink with
    overlay_info := ⟨720, 480, 720, 1920, 0, 480, 1⟩
    pages := [⟨0, 65536, false⟩, ⟨480, 756736, false⟩, ⟨960, 1447936, true⟩, ⟨1440, 2139136, true⟩]
    cur_page := some 1
    old_page := some 0
    ioctls := ready_sink.ioctls ++ [.FBIOPAN_DISPLAY 480, .OMAPFB_UPDATE_WINDOW 1024 768] }

/-- Whether a call is a render. -/
def is_render : call → Bool
  | .render _ => true
  | _ => false

/-! ## Predicates and iterations used in the statements -/

/-- Page i is one the for loop of get_page accepts: it is neither cur_page nor
old_page and its used flag is false. -/
def free (self : gst_omapfb_sink) (i : Nat) : Prop :=
  self.cur_page ≠ some i ∧ self.old_page ≠ some i ∧
    ∃ p, self.pages[i]? = some p ∧ p.used = false

/-- Page i of the pool is where the frame lies: the page exists and its buf is
the data pointer of the buffer. -/
def holds_frame (self : gst_omapfb_sink) (buffer : GstBuffer) (i : Nat) : Prop :=
  ∃ p, self.pages[i]? = some p ∧ p.buf = buffer.data

/-- The sink of an enabled session: the pages array has nr_pages elements,
cur_page points into it, and old_page is NULL or points into it. -/
def wf (self : gst_omapfb_sink) : Prop :=
  self.enabled = true ∧ self.pages.length = self.nr_pages ∧
    (∃ c, self.cur_page = some c ∧ c < self.nr_pages) ∧
    (∀ o, self.old_page = some o → o < self.nr_pages)

/-- The results of n consecutive get_page calls, first call first, and the sink
after them. -/
def get_pages : Nat → gst_omapfb_sink → Option (List (Option Nat) × gst_omapfb_sink)
  | 0, self => some ([], self)
  | n + 1, self => do
    let (page, self) ← get_page self
    let (rest, self) ← get_pages n self
    pure (page :: rest, self)

/-- The sink of a fresh session after its first k get_page calls: page 0 is
current, there is no old page, and the pages in use are pages 1 to k. -/
def taken (self : gst_omapfb_sink) (k : Nat) : Prop :=
  self.cur_page = some 0 ∧ self.old_page = none ∧ self.pages.length = self.nr_pages ∧
    ∀ i p, self.pages[i]? = some p → (p.used = true ↔ 1 ≤ i ∧ i ≤ k)

/-! ## Lemmas on the C arithmetic -/

theorem to_int_of_fits (x : Int) (h1 : -2147483648 ≤ x) (h2 : x < 2147483648) : to_int x = x := by
  unfold to_int
  omega

theorem to_unsigned_of_fits (x : Int) (h1 : 0 ≤ x) (h2 : x < 4294967296) :
    to_unsigned x = x.toNat := by
  unfold to_unsigned
  omega

theorem land_even (m : Nat) (h : m < 4294967296) : m &&& 4294967294 = m - m % 2 := by
  apply Nat.eq_of_testBit_eq
  intro i
  rw [Nat.testBit_and]
  cases i with
  | zero =>
    simp only [Nat.testBit_zero]
    have : (m - m % 2) % 2 = 0 := by omega
    simp [this]
  | succ j =>
    simp only [Nat.testBit_succ]
    have e1 : (4294967294 : Nat) / 2 = 2 ^ 31 - 1 := by norm_num
    have e2 : (m - m % 2) / 2 = m / 2 := by omega
    rw [e1, e2, Nat.testBit_two_pow_sub_one]
    by_cases hj : j < 31
    · simp [hj]
    · have : (m / 2).testBit j = false := by
        apply Nat.testBit_lt_two_pow
        calc m / 2 < 2 ^ 31 := by omega
          _ ≤ 2 ^ j := Nat.pow_le_pow_right (by decide) (by omega)
      simp [this]

theorem ROUND_UP_two (n : Nat) (h : n < 4294967295) : ROUND_UP n 2 = n + n % 2 := by
  have c1 : to_unsigned (to_int (2 - 1)) = 1 := by decide
  have c2 : to_unsigned (to_int (-(to_int (2 - 1)) - 1)) = 4294967294 := by decide
  unfold ROUND_UP
  rw [c1, c2]
  unfold uadd WORD
  rw [land_even _ (Nat.mod_lt _ (by decide))]
  omega

/-- The quotient of line 224 is the quotient of line 220 with the roles of
the two dimensions exchanged. -/
theorem scale_to_height_eq (width height par_n par_d : Int) (yres : Nat) :
    scale_to_height width height par_n par_d yres = scale_to_width height width par_d par_n yres :=
  rfl

/-- The arithmetic heart of the scale-to-height branch: when the first
quotient exceeds the display height, the second is at most the display width,
whether or not the unsigned products wrap. -/
theorem scale_core (a b x y : Nat) (ha : 0 < a) (hb : 0 < b)
    (hq : y < (b * x % 4294967296 + a / 2) % 4294967296 / a) :
    (a * y % 4294967296 + b / 2) % 4294967296 / b ≤ x := by
  have h1 : (y + 1) * a ≤ (b * x % 4294967296 + a / 2) % 4294967296 :=
    (Nat.le_div_iff_mul_le ha).mp hq
  apply Nat.le_of_lt_succ
  rw [Nat.div_lt_iff_lt_mul hb]
  have e1 : (y + 1) * a = a * y + a := by ring
  have e2 : (x + 1) * b = b * x + b := by ring
  rw [e1] at h1
  rw [Nat.succ_eq_add_one, e2]
  generalize b * x = p at h1 ⊢
  generalize a * y = q at h1 ⊢
  omega

/-- The geometry of setup from the two values lines 218-225 leave in
out_width and out_height, when both are within an even display. -/
theorem setup_geometry_of_scale (width height par_n par_d : Int) (xres yres ow oh : Nat)
    (hs : setup_scale width height par_n par_d xres yres = some (ow, oh))
    (hx : xres < 4294967296) (hy : yres < 4294967296)
    (hxe : xres % 2 = 0) (hye : yres % 2 = 0) (how : ow ≤ xres) (hoh : oh ≤ yres) :
    setup_geometry width height par_n par_d xres yres =
      some { out_width := ow + ow % 2, out_height := oh + oh % 2,
             pos_x := (xres - (ow + ow % 2)) / 2, pos_y := (yres - (oh + oh % 2)) / 2 } := by
  have r1 : ROUND_UP ow 2 = ow + ow % 2 := ROUND_UP_two ow (by omega)
  have r2 : ROUND_UP oh 2 = oh + oh % 2 := ROUND_UP_two oh (by omega)
  have u1 : usub xres (ow + ow % 2) = xres - (ow + ow % 2) := by
    unfold usub WORD
    omega
  have u2 : usub yres (oh + oh % 2) = yres - (oh + oh % 2) := by
    unfold usub WORD
    omega
  simp [setup_geometry, hs, r1, r2, u1, u2]

/-! ## The geometry on an even display, for every int input -/

theorem to_unsigned_lt (x : Int) : to_unsigned x < 4294967296 := by
  unfold to_unsigned
  omega

/-- Half of an int whose unsigned value is below 2^31 (so that the int is not
negative): the unsigned value of the half is half the unsigned value. -/
theorem half_of_small (a : Int) (h : to_unsigned (to_int a) < 2147483648) :
    to_unsigned (to_int (Int.tdiv (to_int a) 2)) = to_unsigned (to_int a) / 2 := by
  have h0 : 0 ≤ to_int a := by
    unfold to_unsigned to_int at h
    unfold to_int
    omega
  have h1 : to_int a < 2147483648 := by
    unfold to_int
    omega
  rw [Int.tdiv_eq_ediv h0 (by decide), to_int_of_fits _ (by omega) (by omega),
    to_unsigned_of_fits _ (by omega) (by omega), to_unsigned_of_fits _ h0 (by omega)]
  omega

/-- The quotient of line 220 in full: a fault when the divisor is zero, and
otherwise the quotient of the wrapped sum by the divisor. -/
theorem scale_to_width_unfold (width height par_n par_d : Int) (xres : Nat) :
    scale_to_width width height par_n par_d xres =
      if to_unsigned (imul width par_n) = 0 then none
      else some ((to_unsigned (imul height par_d) * xres % 4294967296 +
        to_unsigned (to_int (Int.tdiv (imul width par_n) 2))) % 4294967296 /
          to_unsigned (imul width par_n)) := by
  have hm : to_unsigned (imul width par_n) % 4294967296 = to_unsigned (imul width par_n) :=
    Nat.mod_eq_of_lt (to_unsigned_lt _)
  simp only [scale_to_width, idiv, udiv, uadd, umul, WORD, Option.bind_eq_bind, hm,
    Nat.mod_mod]
  simp

/-- The arithmetic heart of the scale-to-height branch for every input: ua and
ub are the unsigned values of the two int products and ha, hb those of their
halves.  On a display with positive width and height the second quotient is at
most the display width whenever the first exceeds the display height. -/
theorem scale_core_any (ua ub ha hb x y : Nat) (hua : 0 < ua) (hub : 0 < ub)
    (hha : ua < 2147483648 → ha = ua / 2) (hhb : ub < 2147483648 → hb = ub / 2)
    (hx : 0 < x) (hy : 0 < y)
    (hq : y < (ub * x % 4294967296 + ha) % 4294967296 / ua) :
    (ua * y % 4294967296 + hb) % 4294967296 / ub ≤ x := by
  by_cases hb31 : ub < 2147483648
  · by_cases ha31 : ua < 2147483648
    · rw [hha ha31] at hq
      rw [hhb hb31]
      exact scale_core ua ub x y hua hub hq
    · exfalso
      have h1 : (y + 1) * ua ≤ (ub * x % 4294967296 + ha) % 4294967296 :=
        (Nat.le_div_iff_mul_le hua).mp hq
      have e1 : (y + 1) * ua = ua * y + ua := by ring
      have e2 : ua ≤ ua * y := Nat.le_mul_of_pos_right ua hy
      rw [e1] at h1
      generalize ua * y = q at h1 e2
      omega
  · apply Nat.le_of_lt_succ
    rw [Nat.div_lt_iff_lt_mul hub]
    have e2 : ub ≤ x * ub := Nat.le_mul_of_pos_left ub hx
    have e1 : (x + 1) * ub = x * ub + ub := by ring
    rw [Nat.succ_eq_add_one, e1]
    generalize x * ub = q at e2 ⊢
    omega

/-- Lines 218-225 of setup on a display with positive width and height: the
two values they leave are within the display. -/
theorem setup_scale_inside (width height par_n par_d : Int) (xres yres ow oh : Nat)
    (hx : 0 < xres) (hy : 0 < yres)
    (h : setup_scale width height par_n par_d xres yres = some (ow, oh)) :
    ow ≤ xres ∧ oh ≤ yres := by
  unfold setup_scale at h
  rw [scale_to_width_unfold, scale_to_height_eq, scale_to_width_unfold] at h
  by_cases ha0 : to_unsigned (imul width par_n) = 0
  · simp [ha0] at h
  · simp only [ha0, if_false, Option.bind_eq_bind, Option.some_bind] at h
    split_ifs at h with hq hb0
    · simp at h
    · simp only [Option.some_bind, Option.pure_def, Option.some.injEq, Prod.mk.injEq] at h
      obtain ⟨h1, h2⟩ := h
      subst h1 h2
      exact ⟨scale_core_any _ _ _ _ xres yres (Nat.pos_of_ne_zero ha0) (Nat.pos_of_ne_zero hb0)
        (half_of_small _) (half_of_small _) hx hy hq, Nat.le_refl _⟩
    · simp only [Option.pure_def, Option.some.injEq, Prod.mk.injEq] at h
      obtain ⟨h1, h2⟩ := h
      subst h1 h2
      exact ⟨Nat.le_refl _, Nat.not_lt.mp hq⟩

/-- The geometry of setup on a display whose width and height are positive and
even: whatever the int inputs, a geometry that is computed lies inside the
display. -/
theorem setup_geometry_inside (width height par_n par_d : Int) (xres yres : Nat) (g : geometry)
    (hx0 : 0 < xres) (hy0 : 0 < yres) (hx : xres < 4294967296) (hy : yres < 4294967296)
    (hxe : xres % 2 = 0) (hye : yres % 2 = 0)
    (h : setup_geometry width height par_n par_d xres yres = some g) :
    g.out_width ≤ xres ∧ g.out_height ≤ yres ∧
      g.pos_x + g.out_width ≤ xres ∧ g.pos_y + g.out_height ≤ yres := by
  cases hs : setup_scale width height par_n par_d xres yres with
  | none => simp [setup_geometry, hs] at h
  | some r =>
    obtain ⟨ow, oh⟩ := r
    obtain ⟨how, hoh⟩ := setup_scale_inside width height par_n par_d xres yres ow oh hx0 hy0 hs
    rw [setup_geometry_of_scale width height par_n par_d xres yres ow oh hs hx hy hxe hye
      how hoh] at h
    cases h
    refine ⟨?_, ?_, ?_, ?_⟩ <;> simp only <;> omega

/-- The unsigned value of the product of two ints when the product is
positive and below 2^32: it is not zero. -/
theorem to_unsigned_imul_ne_zero (a b : Int) (h0 : 0 < a * b) (h1 : a * b < 4294967296) :
    to_unsigned (imul a b) ≠ 0 := by
  unfold to_unsigned imul to_int
  omega

/-- The geometry of setup is computed whenever neither divisor is zero; q is
the first quotient, and when it exceeds the display height the second quotient
is computed and is at most the display width. -/
theorem setup_geometry_total (width height par_n par_d : Int) (xres yres : Nat)
    (ha0 : to_unsigned (imul width par_n) ≠ 0) (hb0 : to_unsigned (imul height par_d) ≠ 0)
    (hx0 : 0 < xres) (hy0 : 0 < yres) (hx : xres < 4294967296) (hy : yres < 4294967296)
    (hxe : xres % 2 = 0) (hye : yres % 2 = 0) :
    ∃ q g, scale_to_width width height par_n par_d xres = some q ∧
      setup_geometry width height par_n par_d xres yres = some g ∧
      (yres < q → ∃ ow, scale_to_height width height par_n par_d yres = some ow ∧ ow ≤ xres) := by
  have e1 := scale_to_width_unfold width height par_n par_d xres
  have e2 := scale_to_width_unfold height width par_d par_n yres
  rw [← scale_to_height_eq] at e2
  simp only [ha0, hb0, if_false] at e1 e2
  generalize (to_unsigned (imul height par_d) * xres % 4294967296 +
    to_unsigned (to_int (Int.tdiv (imul width par_n) 2))) % 4294967296 /
      to_unsigned (imul width par_n) = q at e1
  generalize (to_unsigned (imul width par_n) * yres % 4294967296 +
    to_unsigned (to_int (Int.tdiv (imul height par_d) 2))) % 4294967296 /
      to_unsigned (imul height par_d) = ow at e2
  by_cases hq : yres < q
  · have hs : setup_scale width height par_n par_d xres yres = some (ow, yres) := by
      simp [setup_scale, e1, e2, hq]
    obtain ⟨how, hoh⟩ := setup_scale_inside width height par_n par_d xres yres ow yres hx0 hy0 hs
    exact ⟨q, _, e1, setup_geometry_of_scale width height par_n par_d xres yres ow yres hs hx hy
      hxe hye how hoh, fun _ => ⟨ow, e2, how⟩⟩
  · have hs : setup_scale width height par_n par_d xres yres = some (xres, q) := by
      simp [setup_scale, e1, hq]
    obtain ⟨how, hoh⟩ := setup_scale_inside width height par_n par_d xres yres xres q hx0 hy0 hs
    exact ⟨q, _, e1, setup_geometry_of_scale width height par_n par_d xres yres xres q hs hx hy
      hxe hye how hoh, fun h => absurd h hq⟩

/-! ## Lemmas on get_page -/

/-- The for loop of get_page inside the array: it returns the first page from
i on that is free, or NULL when none of the pages it visits is. -/
theorem get_page_scan_spec (s : gst_omapfb_sink) (k : Nat) :
    ∀ i, i + k ≤ s.pages.length →
      (∃ j, get_page_scan s i k = some (some j) ∧ i ≤ j ∧ j < i + k ∧ free s j ∧
        ∀ m, i ≤ m → m < j → ¬ free s m) ∨
      (get_page_scan s i k = some none ∧ ∀ m, i ≤ m → m < i + k → ¬ free s m) := by
  induction k with
  | zero =>
    intro i _
    right
    exact ⟨rfl, fun m h1 h2 => by omega⟩
  | succ k ih =>
    intro i hi
    have hnext := ih (i + 1) (by omega)
    have step_skip : ¬ free s i → get_page_scan s (i + 1) k = get_page_scan s i (k + 1) →
        (∃ j, get_page_scan s i (k + 1) = some (some j) ∧ i ≤ j ∧ j < i + (k + 1) ∧ free s j ∧
          ∀ m, i ≤ m → m < j → ¬ free s m) ∨
        (get_page_scan s i (k + 1) = some none ∧ ∀ m, i ≤ m → m < i + (k + 1) → ¬ free s m) := by
      intro hnf heq
      rcases hnext with ⟨j, h1, h2, h3, h4, h5⟩ | ⟨h1, h2⟩
      · left
        refine ⟨j, heq ▸ h1, by omega, by omega, h4, ?_⟩
        intro m hm1 hm2
        by_cases hmi : m = i
        · exact hmi ▸ hnf
        · exact h5 m (by omega) hm2
      · right
        refine ⟨heq ▸ h1, ?_⟩
        intro m hm1 hm2
        by_cases hmi : m = i
        · exact hmi ▸ hnf
        · exact h2 m (by omega) (by omega)
    by_cases hc : s.cur_page = some i
    · exact step_skip (fun hf => hf.1 hc) (by simp [get_page_scan, hc])
    · by_cases ho : s.old_page = some i
      · exact step_skip (fun hf => hf.2.1 ho) (by simp [get_page_scan, hc, ho])
      · have hlt : i < s.pages.length := by omega
        have hp : s.pages[i]? = some s.pages[i] := List.getElem?_eq_getElem hlt
        by_cases hu : s.pages[i].used = true
        · apply step_skip
          · rintro ⟨_, _, p, hp2, hpu⟩
            rw [hp] at hp2
            cases hp2
            rw [hu] at hpu
            cases hpu
          · simp [get_page_scan, hc, ho, hp, hu]
        · left
          refine ⟨i, by simp [get_page_scan, hc, ho, hp, hu], Nat.le_refl _, by omega,
            ⟨hc, ho, _, hp, by simpa using hu⟩, fun m h1 h2 => by omega⟩

/-- The function get_page when its loop finds page j. -/
theorem get_page_of_scan_some (s : gst_omapfb_sink) (j : Nat) (p : page)
    (hscan : get_page_scan s 0 s.nr_pages = some (some j)) (hp : s.pages[j]? = some p) :
    get_page s = some (some j, { s with pages := s.pages.set j { p with used := true } }) := by
  simp [get_page, hscan, hp]

/-- The function get_page when its loop finds no page and there is no old page. -/
theorem get_page_of_scan_none_none (s : gst_omapfb_sink)
    (hscan : get_page_scan s 0 s.nr_pages = some none) (ho : s.old_page = none) :
    get_page s = some (none, s) := by
  simp [get_page, hscan, ho]

/-- The function get_page when its loop finds no page and the old page is in use. -/
theorem get_page_of_scan_none_used (s : gst_omapfb_sink) (o : Nat) (p : page)
    (hscan : get_page_scan s 0 s.nr_pages = some none) (ho : s.old_page = some o)
    (hp : s.pages[o]? = some p) (hu : p.used = true) :
    get_page s = some (none, s) := by
  simp [get_page, hscan, ho, hp, hu]

/-- The function get_page when its loop finds no page and the old page is not
in use: the old page is reclaimed. -/
theorem get_page_of_scan_none_reclaim (s : gst_omapfb_sink) (o : Nat) (p : page)
    (hscan : get_page_scan s 0 s.nr_pages = some none) (ho : s.old_page = some o)
    (hp : s.pages[o]? = some p) (hu : p.used = false) :
    get_page s = some (some o, { s with pages := s.pages.set o { p with used := true } }) := by
  simp [get_page, hscan, ho, hp, hu]

/-- The full description of get_page on a sink whose pages array has nr_pages
elements and whose old_page is NULL or points into it. -/
theorem get_page_spec (s : gst_omapfb_sink) (hlen : s.pages.length = s.nr_pages)
    (hold : ∀ o, s.old_page = some o → o < s.nr_pages) :
    ∃ r s1, get_page s = some (r, s1) ∧
      (∀ i, i < s.nr_pages → free s i → (∀ j, j < i → ¬ free s j) → r = some i) ∧
      ((∀ i, i < s.nr_pages → ¬ free s i) →
        ∀ o p, s.old_page = some o → s.pages[o]? = some p → p.used = false → r = some o) ∧
      ((∀ i, i < s.nr_pages → ¬ free s i) →
        (∀ o p, s.old_page = some o → s.pages[o]? = some p → p.used = true) → r = none) ∧
      (∀ i, r = some i → ∃ p, s.pages[i]? = some p ∧
        s1 = { s with pages := s.pages.set i { p with used := true } }) ∧
      (r = none → s1 = s) := by
  rcases get_page_scan_spec s s.nr_pages 0 (by omega) with ⟨j, h1, _, h3, h4, h5⟩ | ⟨h1, h2⟩
  · obtain ⟨p, hp, _⟩ := h4.2.2
    refine ⟨some j, _, get_page_of_scan_some s j p h1 hp, ?_, ?_, ?_, ?_, ?_⟩
    · intro i _ hf hb
      rcases Nat.lt_trichotomy i j with hij | hij | hij
      · exact absurd hf (h5 i (Nat.zero_le _) hij)
      · rw [hij]
      · exact absurd h4 (hb j hij)
    · intro hn
      exact absurd h4 (hn j (by omega))
    · intro hn
      exact absurd h4 (hn j (by omega))
    · intro i hi
      cases hi
      exact ⟨p, hp, rfl⟩
    · intro hr
      cases hr
  · have hnf : ∀ i, i < s.nr_pages → ¬ free s i := fun i hi => h2 i (Nat.zero_le _) (by omega)
    rcases Option.eq_none_or_eq_some s.old_page with ho | ⟨o, ho⟩
    · refine ⟨none, s, get_page_of_scan_none_none s h1 ho, ?_, ?_, ?_, ?_, ?_⟩
      · intro i hi hf _
        exact absurd hf (hnf i hi)
      · intro _ o p ho2
        rw [ho] at ho2
        cases ho2
      · intro _ _
        rfl
      · intro i hi
        cases hi
      · intro _
        rfl
    · have hlt : o < s.pages.length := by
        have := hold o ho
        omega
      have hp : s.pages[o]? = some s.pages[o] := List.getElem?_eq_getElem hlt
      by_cases hu : s.pages[o].used = true
      · refine ⟨none, s, get_page_of_scan_none_used s o _ h1 ho hp hu, ?_, ?_, ?_, ?_, ?_⟩
        · intro i hi hf _
          exact absurd hf (hnf i hi)
        · intro _ o2 p2 ho2 hp2 hu2
          rw [ho] at ho2
          cases ho2
          rw [hp] at hp2
          cases hp2
          rw [hu] at hu2
          cases hu2
        · intro _ _
          rfl
        · intro i hi
          cases hi
        · intro _
          rfl
      · have hu2 : s.pages[o].used = false := by simpa using hu
        refine ⟨some o, _, get_page_of_scan_none_reclaim s o _ h1 ho hp hu2, ?_, ?_, ?_, ?_, ?_⟩
        · intro i hi hf _
          exact absurd hf (hnf i hi)
        · intro _ o2 p2 ho2 _ _
          rw [ho] at ho2
          cases ho2
          rfl
        · intro _ hall
          have := hall o _ ho hp
          rw [hu2] at this
          cases this
        · intro i hi
          cases hi
          exact ⟨_, hp, rfl⟩
        · intro hr
          cases hr

/-- What get_page leaves alone: it returns, the sink afterwards differs from the
sink before in the pages array only, whose length is kept, and a page that is
returned lies in the array. -/
theorem get_page_frame (s : gst_omapfb_sink) (hlen : s.pages.length = s.nr_pages)
    (hold : ∀ o, s.old_page = some o → o < s.nr_pages) :
    ∃ r pages1, get_page s = some (r, { s with pages := pages1 }) ∧
      pages1.length = s.pages.length ∧ ∀ i, r = some i → i < s.nr_pages := by
  obtain ⟨r, s1, h, _, _, _, h4, h5⟩ := get_page_spec s hlen hold
  cases r with
  | none =>
    have e := h5 rfl
    subst e
    exact ⟨none, s1.pages, h, rfl, fun i hi => by cases hi⟩
  | some j =>
    obtain ⟨p, hp, e⟩ := h4 j rfl
    subst e
    refine ⟨some j, _, h, by simp, ?_⟩
    intro i hi
    cases hi
    have := (List.getElem?_eq_some_iff.mp hp).1
    omega

/-! ## Lemmas on render -/

/-- The for loop of render inside the array: it returns, and a page it finds
lies in the array. -/
theorem render_find_spec (s : gst_omapfb_sink) (data : Nat) (k : Nat) :
    ∀ i, i + k ≤ s.pages.length →
      ∃ r, render_find s data i k = some r ∧ ∀ j, r = some j → j < i + k := by
  induction k with
  | zero =>
    intro i _
    exact ⟨none, rfl, fun j hj => by cases hj⟩
  | succ k ih =>
    intro i hi
    have hp : s.pages[i]? = some s.pages[i] := List.getElem?_eq_getElem (by omega)
    by_cases hb : s.pages[i].buf = data
    · refine ⟨some i, by simp [render_find, hp, hb], ?_⟩
      intro j hj
      cases hj
      omega
    · obtain ⟨r, h1, h2⟩ := ih (i + 1) (by omega)
      refine ⟨r, by simp [render_find, hp, hb, h1], ?_⟩
      intro j hj
      have := h2 j hj
      omega

/-- Lines 384-395 of render on the sink of an enabled session: a page of the
array is chosen, and the sink changes in the pages array only. -/
theorem render_page_spec (s : gst_omapfb_sink) (buffer : GstBuffer) (h : wf s) :
    ∃ page pages1, render_page s buffer = some (page, { s with pages := pages1 }) ∧
      pages1.length = s.pages.length ∧ page < s.nr_pages := by
  obtain ⟨_, hlen, ⟨c, hc, hcn⟩, hold⟩ := h
  obtain ⟨r, h1, h2⟩ := render_find_spec s buffer.data s.nr_pages 0 (by omega)
  cases r with
  | some i =>
    refine ⟨i, s.pages, by simp [render_page, h1], rfl, ?_⟩
    have := h2 i rfl
    omega
  | none =>
    obtain ⟨r, pages1, hg, hl, hr⟩ := get_page_frame s hlen hold
    cases r with
    | some i =>
      have hi := hr i rfl
      have hp : pages1[i]? = some pages1[i] := List.getElem?_eq_getElem (by omega)
      exact ⟨i, pages1, by simp [render_page, h1, hg, hp], hl, hi⟩
    | none =>
      have hp : pages1[c]? = some pages1[c] := List.getElem?_eq_getElem (by omega)
      exact ⟨c, pages1, by simp [render_page, h1, hg, hc, hp], hl, hcn⟩

/-- The end of render, lines 397-409, once the page is chosen: whatever the
device answers, render returns GST_FLOW_OK, the page becomes cur_page, the
former cur_page becomes old_page and the used flag of the page is cleared. -/
theorem render_of_page (dev : device) (s s1 : gst_omapfb_sink) (buffer : GstBuffer)
    (page : Nat) (p : Omapfb.page) (h1 : render_page s buffer = some (page, s1))
    (hp : s1.pages[page]? = some p) :
    ∃ s2, render dev s buffer = some (.GST_FLOW_OK, s2) ∧ s2.cur_page = some page ∧
      s2.old_page = s1.cur_page ∧ s2.pages = s1.pages.set page { p with used := false } ∧
      s2.nr_pages = s1.nr_pages ∧ s2.enabled = s1.enabled := by
  by_cases hc : some page = s1.cur_page <;> by_cases hm : s1.manual_update = true <;>
    simp [render, h1, hp, hc, hm, update, ioctl]

/-- The function render on the sink of an enabled session: it returns
GST_FLOW_OK whatever the device answers, a page becomes cur_page, the former
cur_page becomes old_page, and the sink is again that of an enabled session. -/
theorem render_spec (dev : device) (s : gst_omapfb_sink) (buffer : GstBuffer) (h : wf s) :
    ∃ s2 page, render dev s buffer = some (.GST_FLOW_OK, s2) ∧
      (render_page s buffer).map Prod.fst = some page ∧ s2.cur_page = some page ∧
      s2.old_page = s.cur_page ∧ wf s2 := by
  obtain ⟨page, pages1, h1, hl, hpn⟩ := render_page_spec s buffer h
  obtain ⟨hen, hlen, ⟨c, hc, hcn⟩, hold⟩ := h
  have hlt : page < pages1.length := by omega
  have hp : pages1[page]? = some pages1[page] := List.getElem?_eq_getElem hlt
  obtain ⟨s2, e, e1, e2, e3, e4, e5⟩ := render_of_page dev s _ buffer page _ h1 hp
  refine ⟨s2, page, e, by rw [h1]; rfl, e1, e2, ?_, ?_, ?_, ?_⟩
  · rw [e5]
    exact hen
  · rw [e3, e4]
    simp only [List.length_set]
    show pages1.length = s.nr_pages
    omega
  · exact ⟨page, e1, by rw [e4]; exact hpn⟩
  · intro o ho
    rw [e2] at ho
    rw [e4]
    simp only at ho
    rw [hc] at ho
    cases ho
    exact hcn

/-- The for loop of render inside the array, in full: it returns the first
page from i on whose buf is the data pointer, or NULL when none of the pages it
visits has it. -/
theorem render_find_first (s : gst_omapfb_sink) (buffer : GstBuffer) (k : Nat) :
    ∀ i, i + k ≤ s.pages.length →
      (∃ j, render_find s buffer.data i k = some (some j) ∧ i ≤ j ∧ j < i + k ∧
        holds_frame s buffer j ∧ ∀ m, i ≤ m → m < j → ¬ holds_frame s buffer m) ∨
      (render_find s buffer.data i k = some none ∧
        ∀ m, i ≤ m → m < i + k → ¬ holds_frame s buffer m) := by
  induction k with
  | zero =>
    intro i _
    right
    exact ⟨rfl, fun m h1 h2 => by omega⟩
  | succ k ih =>
    intro i hi
    have hp : s.pages[i]? = some s.pages[i] := List.getElem?_eq_getElem (by omega)
    by_cases hb : s.pages[i].buf = buffer.data
    · left
      exact ⟨i, by simp [render_find, hp, hb], Nat.le_refl _, by omega, ⟨_, hp, hb⟩,
        fun m h1 h2 => by omega⟩
    · have hnot : ¬ holds_frame s buffer i := by
        rintro ⟨p, hp2, hpb⟩
        rw [hp] at hp2
        cases hp2
        exact hb hpb
      have heq : render_find s buffer.data i (k + 1) = render_find s buffer.data (i + 1) k := by
        simp [render_find, hp, hb]
      rcases ih (i + 1) (by omega) with ⟨j, h1, h2, h3, h4, h5⟩ | ⟨h1, h2⟩
      · left
        refine ⟨j, heq ▸ h1, by omega, by omega, h4, ?_⟩
        intro m hm1 hm2
        by_cases hmi : m = i
        · exact hmi ▸ hnot
        · exact h5 m (by omega) hm2
      · right
        refine ⟨heq ▸ h1, ?_⟩
        intro m hm1 hm2
        by_cases hmi : m = i
        · exact hmi ▸ hnot
        · exact h2 m (by omega) (by omega)

/-- The page lines 384-395 of render choose, on a sink whose pages array has
nr_pages elements: the lowest page that holds the frame when there is one;
otherwise the page get_page returns, and the former cur_page when get_page
returns none. -/
theorem render_page_choice (s s1 : gst_omapfb_sink) (buffer : GstBuffer) (pg : Nat)
    (hlen : s.pages.length = s.nr_pages)
    (h : render_page s buffer = some (pg, s1)) :
    (∀ i, holds_frame s buffer i → (∀ j, j < i → ¬ holds_frame s buffer j) → pg = i) ∧
    ((∀ i, ¬ holds_frame s buffer i) →
      ∃ r s2, get_page s = some (r, s2) ∧ (∀ i, r = some i → pg = i) ∧
        (r = none → s2.cur_page = some pg)) := by
  rcases render_find_first s buffer s.nr_pages 0 (by omega) with
    ⟨j, h1, _, _, h4, h5⟩ | ⟨h1, h2⟩
  · have e : pg = j := by
      simp [render_page, h1] at h
      exact h.1.symm
    subst e
    constructor
    · intro i hi hb
      rcases Nat.lt_trichotomy i pg with hij | hij | hij
      · exact absurd hi (h5 i (Nat.zero_le _) hij)
      · exact hij.symm
      · exact absurd h4 (hb pg hij)
    · intro hn
      exact absurd h4 (hn pg)
  · constructor
    · intro i hi _
      obtain ⟨p, hp, _⟩ := hi
      have hlt := (List.getElem?_eq_some_iff.mp hp).1
      exact absurd ⟨p, hp, by assumption⟩ (h2 i (Nat.zero_le _) (by omega))
    · intro _
      cases hg : get_page s with
      | none => simp [render_page, h1, hg] at h
      | some rs =>
        obtain ⟨r, s2⟩ := rs
        refine ⟨r, s2, rfl, ?_, ?_⟩
        · intro i hr
          subst hr
          simp only [render_page, h1, hg, Option.bind_eq_bind, Option.some_bind,
            Option.pure_def] at h
          obtain ⟨_, _, h⟩ := Option.bind_eq_some.mp h
          simp only [Option.some.injEq, Prod.mk.injEq] at h
          exact h.1.symm
        · intro hr
          subst hr
          simp only [render_page, h1, hg, Option.bind_eq_bind, Option.some_bind,
            Option.pure_def] at h
          obtain ⟨c, hc, h⟩ := Option.bind_eq_some.mp h
          obtain ⟨_, _, h⟩ := Option.bind_eq_some.mp h
          simp only [Option.some.injEq, Prod.mk.injEq] at h
          rw [← h.1]
          exact hc

/-- A sink that agrees with the sink of an enabled session on enabled, nr_pages,
cur_page, old_page and the length of the pages array is one too. -/
theorem wf_of_same (s s1 : gst_omapfb_sink) (h : wf s) (e1 : s1.enabled = s.enabled)
    (e2 : s1.pages.length = s.pages.length) (e3 : s1.nr_pages = s.nr_pages)
    (e4 : s1.cur_page = s.cur_page) (e5 : s1.old_page = s.old_page) : wf s1 := by
  unfold wf at h ⊢
  rw [e1, e2, e3, e4, e5]
  exact h

/-- The function get_page on the sink of an enabled session: it returns,
cur_page and old_page are kept, and the sink is again that of an enabled
session. -/
theorem get_page_wf (s : gst_omapfb_sink) (h : wf s) :
    ∃ r s1, get_page s = some (r, s1) ∧ s1.cur_page = s.cur_page ∧
      s1.old_page = s.old_page ∧ wf s1 := by
  obtain ⟨r, pages1, hg, hl, _⟩ := get_page_frame s h.2.1 h.2.2.2
  exact ⟨r, { s with pages := pages1 }, hg, rfl, rfl, wf_of_same s _ h rfl hl rfl rfl rfl⟩

/-- The function buffer_alloc on the sink of an enabled session: it returns
GST_FLOW_OK, cur_page and old_page are kept, and the sink is again that of an
enabled session. -/
theorem buffer_alloc_wf (dev : device) (s : gst_omapfb_sink) (offset size : Nat)
    (caps : GstCaps) (h : wf s) :
    ∃ buf s1, buffer_alloc dev s offset size caps = some (.GST_FLOW_OK, buf, s1) ∧
      s1.cur_page = s.cur_page ∧ s1.old_page = s.old_page ∧ wf s1 := by
  have hen := h.1
  obtain ⟨r, pages1, hg, hl, hr⟩ := get_page_frame s h.2.1 h.2.2.2
  cases r with
  | none =>
    exact ⟨none, { s with pages := pages1 }, by simp [buffer_alloc, hen, hg], rfl, rfl,
      wf_of_same s _ h rfl hl rfl rfl rfl⟩
  | some i =>
    have hi := hr i rfl
    have hlt : i < pages1.length := by
      have := h.2.1
      omega
    have hp : pages1[i]? = some pages1[i] := List.getElem?_eq_getElem hlt
    have ho2 : ¬ s.old_page = some i → ¬ (some i = s.old_page) := fun hne e => hne e.symm
    by_cases ho : s.old_page = some i
    · exact ⟨some { data := pages1[i].buf, size := size, caps := caps },
        { s with pages := pages1, ioctls := s.ioctls ++ [.OMAPFB_WAITFORVSYNC] },
        by simp [buffer_alloc, hen, hg, hp, ho, ioctl], rfl, rfl,
        wf_of_same s _ h rfl hl rfl rfl rfl⟩
    · exact ⟨some { data := pages1[i].buf, size := size, caps := caps },
        { s with pages := pages1 },
        by simp [buffer_alloc, hen, hg, hp, ho2 ho],
        rfl, rfl, wf_of_same s _ h rfl hl rfl rfl rfl⟩

/-- One call on the sink of an enabled session returns and leaves the sink of
an enabled session. -/
theorem step_wf (dev : device) (s : gst_omapfb_sink) (c : call) (h : wf s) :
    ∃ s1, step dev s c = some s1 ∧ wf s1 := by
  cases c with
  | buffer_alloc offset size caps =>
    obtain ⟨buf, s1, e, _, _, hw⟩ := buffer_alloc_wf dev s offset size caps h
    exact ⟨s1, by simp [step, e], hw⟩
  | render buffer =>
    obtain ⟨s2, _, e, _, _, _, hw⟩ := render_spec dev s buffer h
    exact ⟨s2, by simp [step, e], hw⟩
  | get_page =>
    obtain ⟨r, s1, e, _, _, hw⟩ := get_page_wf s h
    exact ⟨s1, by simp [step, e], hw⟩

/-- Every sequence of calls on the sink of an enabled session returns and
leaves the sink of an enabled session. -/
theorem run_wf (dev : device) (calls : List call) :
    ∀ s, wf s → ∃ s1, run dev s calls = some s1 ∧ wf s1 := by
  induction calls with
  | nil =>
    intro s h
    exact ⟨s, rfl, h⟩
  | cons c cs ih =>
    intro s h
    obtain ⟨s1, e1, h1⟩ := step_wf dev s c h
    obtain ⟨s2, e2, h2⟩ := ih s1 h1
    exact ⟨s2, by simp [run, e1, e2], h2⟩

/-! ## Lemmas on setup -/

/-- The for loop at the end of setup inside the array: it returns, changes the
pages array only, keeps its length and leaves every used flag as it was. -/
theorem setup_pages_spec (framesize : Nat) (k : Nat) :
    ∀ (s : gst_omapfb_sink) (i : Nat), i + k ≤ s.pages.length →
      (∀ p, p ∈ s.pages → p.used = false) →
      ∃ pages1, setup_pages s framesize i k = some { s with pages := pages1 } ∧
        pages1.length = s.pages.length ∧ ∀ p, p ∈ pages1 → p.used = false := by
  induction k with
  | zero =>
    intro s i _ hu
    exact ⟨s.pages, rfl, rfl, hu⟩
  | succ k ih =>
    intro s i hi hu
    have hlt : i < s.pages.length := by omega
    have hp : s.pages[i]? = some s.pages[i] := List.getElem?_eq_getElem hlt
    have hu0 : s.pages[i].used = false := hu _ (List.getElem_mem hlt)
    obtain ⟨pages1, e, hl, hu1⟩ := ih
      { s with pages := (s.pages.set i (page.mk (umul i s.overlay_info.yres)
          (s.framebuffer + umul i framesize) s.pages[i].used)) }
      (i + 1) (by simp only [List.length_set]; omega)
      (by
        intro p hpm
        rcases List.mem_or_eq_of_mem_set hpm with h1 | h1
        · exact hu p h1
        · rw [h1]
          exact hu0)
    refine ⟨pages1, ?_, by simpa using hl, hu1⟩
    simp only [setup_pages, hp]
    exact e

/-- The sink the for loop at the end of setup returns. -/
theorem setup_pages_result (framesize k : Nat) (s s1 : gst_omapfb_sink) (i : Nat)
    (hi : i + k ≤ s.pages.length) (hu : ∀ p, p ∈ s.pages → p.used = false)
    (h : setup_pages s framesize i k = some s1) :
    s1.pages.length = s.pages.length ∧ (∀ p, p ∈ s1.pages → p.used = false) ∧
      s1.enabled = s.enabled ∧ s1.nr_pages = s.nr_pages ∧ s1.cur_page = s.cur_page ∧
      s1.old_page = s.old_page := by
  obtain ⟨pages1, e, hl, hu1⟩ := setup_pages_spec framesize k s i hi hu
  rw [e] at h
  cases h
  exact ⟨hl, hu1, rfl, rfl, rfl, rfl⟩

/-- The sink a successful setup leaves: enabled, with nr_pages pages none of
which is in use, page 0 current, and old_page as it was before the call. -/
theorem setup_fresh (dev : device) (s s0 : gst_omapfb_sink) (caps : GstCaps)
    (h : setup dev s caps = some (true, s0)) :
    s0.enabled = true ∧ s0.pages.length = s.nr_pages ∧ s0.nr_pages = s.nr_pages ∧
      s0.cur_page = some 0 ∧ s0.old_page = s.old_page ∧ ∀ p, p ∈ s0.pages → p.used = false := by
  simp only [setup, ioctl, Option.pure_def, Option.bind_eq_bind, ne_eq, ite_not] at h
  split_ifs at h <;> try (simp at h; done)
  · obtain ⟨g, _, h⟩ := Option.bind_eq_some.mp h
    obtain ⟨s1, hs1, h⟩ := Option.bind_eq_some.mp h
    have hcal : ∀ p, p ∈ calloc_pages s.nr_pages → p.used = false := by
      intro p hp
      rw [List.eq_of_mem_replicate hp]
    obtain ⟨e1, e2, e3, e4, _, e6⟩ :=
      setup_pages_result _ _ _ _ _ (by simp [calloc_pages]) hcal hs1
    simp only [Option.some.injEq, Prod.mk.injEq, true_and] at h
    subst h
    refine ⟨e3, ?_, e4, rfl, e6, e2⟩
    simpa [calloc_pages] using e1
  · obtain ⟨g, _, h⟩ := Option.bind_eq_some.mp h
    simp at h

/-- The sink a successful setup leaves, when old_page was NULL before (as start
leaves it) and nr_pages is positive, is the sink of an enabled session. -/
theorem setup_wf (dev : device) (s s0 : gst_omapfb_sink) (caps : GstCaps)
    (h : setup dev s caps = some (true, s0)) (hold : s.old_page = none) (hn : 0 < s.nr_pages) :
    wf s0 := by
  obtain ⟨e1, e2, e3, e4, e5, _⟩ := setup_fresh dev s s0 caps h
  refine ⟨e1, by omega, ⟨0, e4, by omega⟩, ?_⟩
  intro o ho
  rw [e5, hold] at ho
  cases ho

/-! ## Consecutive get_page calls on a fresh session -/

/-- With pages 1 to k in use and page k+1 in the array, get_page returns page
k+1. -/
theorem get_page_taken_next (s : gst_omapfb_sink) (k : Nat) (h : taken s k)
    (hk : k + 1 < s.nr_pages) :
    ∃ s1, get_page s = some (some (k + 1), s1) ∧ taken s1 (k + 1) ∧
      s1.nr_pages = s.nr_pages := by
  obtain ⟨hc, ho, hlen, hu⟩ := h
  have hold : ∀ o, s.old_page = some o → o < s.nr_pages := by
    intro o h1
    rw [ho] at h1
    cases h1
  obtain ⟨r, s1, hg, h1, _, _, h4, _⟩ := get_page_spec s hlen hold
  have hlt : k + 1 < s.pages.length := by omega
  have hp : s.pages[k + 1]? = some s.pages[k + 1] := List.getElem?_eq_getElem hlt
  have hfree : free s (k + 1) := by
    refine ⟨by rw [hc]; simp, by rw [ho]; simp, _, hp, ?_⟩
    have := hu _ _ hp
    cases hv : s.pages[k + 1].used with
    | false => rfl
    | true =>
      have := this.mp hv
      omega
  have hbelow : ∀ j, j < k + 1 → ¬ free s j := by
    intro j hj hf
    obtain ⟨f1, _, p, f3, f4⟩ := hf
    by_cases hj0 : j = 0
    · exact f1 (by rw [hc, hj0])
    · have := (hu j p f3).mpr ⟨by omega, by omega⟩
      rw [f4] at this
      cases this
  have hr := h1 (k + 1) hk hfree hbelow
  subst hr
  obtain ⟨p, hp2, e⟩ := h4 (k + 1) rfl
  subst e
  refine ⟨_, hg, ⟨hc, ho, by simp only [List.length_set]; exact hlen, ?_⟩, rfl⟩
  intro i q hq
  simp only [List.getElem?_set] at hq
  by_cases hik : k + 1 = i
  · simp only [hik, if_true] at hq
    split at hq
    · cases hq
      simp only [true_iff]
      omega
    · cases hq
  · simp only [hik, if_false] at hq
    have := hu i q hq
    rw [this]
    omega

/-- With page 0 current, no old page and every other page in use, get_page
returns no page and leaves the sink as it is. -/
theorem get_page_taken_last (s : gst_omapfb_sink) (k : Nat) (h : taken s k)
    (hk : s.nr_pages ≤ k + 1) : get_page s = some (none, s) := by
  obtain ⟨hc, ho, hlen, hu⟩ := h
  have hold : ∀ o, s.old_page = some o → o < s.nr_pages := by
    intro o h1
    rw [ho] at h1
    cases h1
  obtain ⟨r, s1, hg, _, _, h3, _, h5⟩ := get_page_spec s hlen hold
  have hnone : ∀ i, i < s.nr_pages → ¬ free s i := by
    intro j hj hf
    obtain ⟨f1, _, p, f3, f4⟩ := hf
    by_cases hj0 : j = 0
    · exact f1 (by rw [hc, hj0])
    · have := (hu j p f3).mpr ⟨by omega, by omega⟩
      rw [f4] at this
      cases this
  have hr := h3 hnone (by
    intro o p h1
    rw [ho] at h1
    cases h1)
  subst hr
  rw [h5 rfl] at hg
  exact hg

/-- With pages 1 to k in use and m more pages behind them in the array, m + 1
consecutive get_page calls return pages k+1 to k+m in this order and then no
page. -/
theorem get_pages_taken (m : Nat) :
    ∀ (s : gst_omapfb_sink) (k : Nat), taken s k → k + m + 1 = s.nr_pages →
      ∃ s1, get_pages (m + 1) s =
        some ((List.range' (k + 1) m).map some ++ [none], s1) := by
  induction m with
  | zero =>
    intro s k h hk
    have e := get_page_taken_last s k h (by omega)
    exact ⟨s, by simp [get_pages, e]⟩
  | succ m ih =>
    intro s k h hk
    obtain ⟨s1, e, h1, hn⟩ := get_page_taken_next s k h (by omega)
    obtain ⟨s2, e2⟩ := ih s1 (k + 1) h1 (by omega)
    refine ⟨s2, ?_⟩
    rw [get_pages]
    simp only [e, e2, Option.bind_eq_bind, Option.some_bind, Option.pure_def]
    simp [List.range'_succ]

/-- The sink a successful setup leaves, when old_page was NULL before, has no
page in use. -/
theorem setup_taken (dev : device) (s s0 : gst_omapfb_sink) (caps : GstCaps)
    (h : setup dev s caps = some (true, s0)) (hold : s.old_page = none) :
    taken s0 0 ∧ s0.nr_pages = s.nr_pages := by
  obtain ⟨_, e2, e3, e4, e5, e6⟩ := setup_fresh dev s s0 caps h
  refine ⟨⟨e4, by rw [e5, hold], by omega, ?_⟩, e3⟩
  intro i p hp
  obtain ⟨hlt, hpe⟩ := List.getElem?_eq_some_iff.mp hp
  have := e6 p (hpe ▸ List.getElem_mem hlt)
  rw [this]
  constructor
  · intro hf
    cases hf
  · intro hi
    omega

/-- A sequence of calls without a render, on the sink of an enabled session,
returns and keeps cur_page and old_page. -/
theorem run_no_render (dev : device) (calls : List call) :
    ∀ s, wf s → (∀ c, c ∈ calls → is_render c = false) →
      ∃ s1, run dev s calls = some s1 ∧ s1.cur_page = s.cur_page ∧
        s1.old_page = s.old_page ∧ wf s1 := by
  induction calls with
  | nil =>
    intro s h _
    exact ⟨s, rfl, rfl, rfl, h⟩
  | cons c cs ih =>
    intro s h hc
    have hcs : ∀ c1, c1 ∈ cs → is_render c1 = false :=
      fun c1 h1 => hc c1 (List.mem_cons_of_mem _ h1)
    have hc0 : is_render c = false := hc c (List.mem_cons_self _ _)
    cases c with
    | buffer_alloc offset size caps =>
      obtain ⟨buf, s1, e, e1, e2, hw⟩ := buffer_alloc_wf dev s offset size caps h
      obtain ⟨s2, f, f1, f2, hw2⟩ := ih s1 hw hcs
      exact ⟨s2, by simp [run, step, e, f], by rw [f1, e1], by rw [f2, e2], hw2⟩
    | render buffer => cases hc0
    | get_page =>
      obtain ⟨r, s1, e, e1, e2, hw⟩ := get_page_wf s h
      obtain ⟨s2, f, f1, f2, hw2⟩ := ih s1 hw hcs
      exact ⟨s2, by simp [run, step, e, f], by rw [f1, e1], by rw [f2, e2], hw2⟩

/-- Running two sequences of calls one after the other. -/
theorem run_append (dev : device) (a b : List call) :
    ∀ s, run dev s (a ++ b) = (run dev s a).bind (fun s1 => run dev s1 b) := by
  induction a with
  | nil =>
    intro s
    rfl
  | cons c cs ih =>
    intro s
    cases hs : step dev s c with
    | none => simp [run, hs]
    | some s1 => simp [run, hs, ih]

/-! ## The claims -/

/-- Claim C1, counterexample.  On the session that start and setup establish for
720x480 caps, the producer obtains page 1 with buffer_alloc and the frame
written there is rendered twice (once as preroll, once as render): afterwards
cur_page and old_page are both set and are the same page 1. -/
theorem rotation_invariant_fails_on_rerender :
    setup good_device started_sink caps_720x480 = some (true, ready_sink) ∧
      started_sink.old_page = none ∧
      ∃ s, run good_device ready_sink [alloc, .render frame_in_page1, .render frame_in_page1]
          = some s ∧
        s.cur_page = some 1 ∧ s.old_page = some 1 := by
  decide

/-- Claim C1, as amended.  From the sink a successful setup leaves (old_page
being NULL before it, as start leaves it), every finite sequence of
buffer_alloc, render and get_page calls returns.  As long as no render was
called, cur_page is page 0 and old_page is NULL.  After the last render of the
sequence and the calls that follow it, both are set: old_page is the page that
was current just before that render, and cur_page is the page that render
chose, namely the lowest pool page that holds the frame when there is one,
otherwise the page get_page returns, and the former cur_page when get_page
returns none.  So the two differ exactly when the chosen page is not the page
that was current; a render whose frame lies in the current page, and a render
that falls back to cur_page as last resort, leave cur_page = old_page. -/
theorem rotation_after_render (dev : device) (s s0 : gst_omapfb_sink) (caps : GstCaps)
    (h : setup dev s caps = some (true, s0)) (hold : s.old_page = none)
    (hn : 0 < s.nr_pages) :
    (∀ calls, (∀ c, c ∈ calls → is_render c = false) →
      ∃ s1, run dev s0 calls = some s1 ∧ s1.cur_page = some 0 ∧ s1.old_page = none) ∧
    (∀ calls buffer more, (∀ c, c ∈ more → is_render c = false) →
      ∃ s1 s3 pg old, run dev s0 calls = some s1 ∧ s1.cur_page = some old ∧
        run dev s0 (calls ++ .render buffer :: more) = some s3 ∧
        s3.cur_page = some pg ∧ s3.old_page = some old ∧
        (∀ i, holds_frame s1 buffer i → (∀ j, j < i → ¬ holds_frame s1 buffer j) → pg = i) ∧
        ((∀ i, ¬ holds_frame s1 buffer i) →
          ∃ r s2, get_page s1 = some (r, s2) ∧ (∀ i, r = some i → pg = i) ∧
            (r = none → pg = old)) ∧
        (s3.cur_page ≠ s3.old_page ↔ pg ≠ old) ∧
        (holds_frame s1 buffer old → (∀ j, j < old → ¬ holds_frame s1 buffer j) →
          s3.cur_page = s3.old_page) ∧
        ((∀ i, ¬ holds_frame s1 buffer i) → (∃ s2, get_page s1 = some (none, s2)) →
          s3.cur_page = s3.old_page)) := by
  have hw := setup_wf dev s s0 caps h hold hn
  obtain ⟨_, _, _, e4, e5, _⟩ := setup_fresh dev s s0 caps h
  constructor
  · intro calls hc
    obtain ⟨s1, e, e1, e2, _⟩ := run_no_render dev calls s0 hw hc
    exact ⟨s1, e, by rw [e1, e4], by rw [e2, e5, hold]⟩
  · intro calls buffer more hc
    obtain ⟨s1, e, hw1⟩ := run_wf dev calls s0 hw
    obtain ⟨old, ho, _⟩ := hw1.2.2.1
    obtain ⟨s2, pg, f, f0, f1, f2, hw2⟩ := render_spec dev s1 buffer hw1
    obtain ⟨s3, g, g1, g2, _⟩ := run_no_render dev more s2 hw2 hc
    have hc3 : s3.cur_page = some pg := by rw [g1, f1]
    have ho3 : s3.old_page = some old := by rw [g2, f2, ho]
    obtain ⟨⟨pg1, sx⟩, hrp, hfst⟩ := Option.map_eq_some'.mp f0
    simp only at hfst
    subst hfst
    obtain ⟨k1, k2⟩ := render_page_choice s1 sx buffer pg1 hw1.2.1 hrp
    have k3 : (∀ i, ¬ holds_frame s1 buffer i) →
        ∃ r sg, get_page s1 = some (r, sg) ∧ (∀ i, r = some i → pg1 = i) ∧
          (r = none → pg1 = old) := by
      intro hnone
      obtain ⟨r, sg, hg, a1, a2⟩ := k2 hnone
      refine ⟨r, sg, hg, a1, ?_⟩
      intro hr
      obtain ⟨r1, sg1, hg1, c1, _, _⟩ := get_page_wf s1 hw1
      rw [hg] at hg1
      simp only [Option.some.injEq, Prod.mk.injEq] at hg1
      have := a2 hr
      rw [hg1.2, c1, ho] at this
      exact (Option.some.inj this).symm
    refine ⟨s1, s3, pg1, old, e, ho, ?_, hc3, ho3, k1, k3, ?_, ?_, ?_⟩
    · rw [run_append, e]
      simp [run, step, f, g]
    · rw [hc3, ho3]
      simp
    · intro hh hl
      rw [hc3, ho3, k1 old hh hl]
    · intro hnone hg
      obtain ⟨sg, hg⟩ := hg
      obtain ⟨r, sg1, hg1, _, a2⟩ := k3 hnone
      rw [hg] at hg1
      simp only [Option.some.injEq, Prod.mk.injEq] at hg1
      rw [hc3, ho3, a2 hg1.1.symm]

/-- Claim C1, as amended: an instance, the session of good_device. -/
theorem rotation_after_render_witness :
    (∀ calls, (∀ c, c ∈ calls → is_render c = false) →
      ∃ s1, run good_device ready_sink calls = some s1 ∧ s1.cur_page = some 0 ∧
        s1.old_page = none) ∧
    (∀ calls buffer more, (∀ c, c ∈ more → is_render c = false) →
      ∃ s1 s3 pg old, run good_device ready_sink calls = some s1 ∧ s1.cur_page = some old ∧
        run good_device ready_sink (calls ++ .render buffer :: more) = some s3 ∧
        s3.cur_page = some pg ∧ s3.old_page = some old ∧
        (∀ i, holds_frame s1 buffer i → (∀ j, j < i → ¬ holds_frame s1 buffer j) → pg = i) ∧
        ((∀ i, ¬ holds_frame s1 buffer i) →
          ∃ r s2, get_page s1 = some (r, s2) ∧ (∀ i, r = some i → pg = i) ∧
            (r = none → pg = old)) ∧
        (s3.cur_page ≠ s3.old_page ↔ pg ≠ old) ∧
        (holds_frame s1 buffer old → (∀ j, j < old → ¬ holds_frame s1 buffer j) →
          s3.cur_page = s3.old_page) ∧
        ((∀ i, ¬ holds_frame s1 buffer i) → (∃ s2, get_page s1 = some (none, s2)) →
          s3.cur_page = s3.old_page)) :=
  rotation_after_render good_device started_sink ready_sink caps_720x480 (by decide) (by decide)
    (by decide)

/-- Claim C2.  On a sink whose pages array has nr_pages elements and whose
old_page is NULL or points into it, get_page returns, and: it returns the
lowest page that is free (neither cur_page nor old_page, and not in use); when
no page is free and old_page is set and not in use it returns old_page; when
no page is free and old_page is NULL or in use it returns no page; a returned
page has its used flag set and nothing else in the sink changes; when no page
is returned the sink is unchanged. -/
theorem get_page_first_fit_with_reclaim (s : gst_omapfb_sink)
    (hlen : s.pages.length = s.nr_pages)
    (hold : ∀ o, s.old_page = some o → o < s.nr_pages) :
    ∃ r s1, get_page s = some (r, s1) ∧
      (∀ i, i < s.nr_pages → free s i → (∀ j, j < i → ¬ free s j) → r = some i) ∧
      ((∀ i, i < s.nr_pages → ¬ free s i) →
        ∀ o p, s.old_page = some o → s.pages[o]? = some p → p.used = false → r = some o) ∧
      ((∀ i, i < s.nr_pages → ¬ free s i) →
        (∀ o p, s.old_page = some o → s.pages[o]? = some p → p.used = true) → r = none) ∧
      (∀ i, r = some i → ∃ p, s.pages[i]? = some p ∧
        s1 = { s with pages := s.pages.set i { p with used := true } }) ∧
      (r = none → s1 = s) :=
  get_page_spec s hlen hold

/-- Claim C2: an instance, the sink busy_sink, in which page 1 is current, page
0 is old and not in use, and pages 2 and 3 are in use. -/
theorem get_page_first_fit_with_reclaim_witness :
    ∃ r s1, get_page busy_sink = some (r, s1) ∧
      (∀ i, i < busy_sink.nr_pages → free busy_sink i → (∀ j, j < i → ¬ free busy_sink j) →
        r = some i) ∧
      ((∀ i, i < busy_sink.nr_pages → ¬ free busy_sink i) →
        ∀ o p, busy_sink.old_page = some o → busy_sink.pages[o]? = some p → p.used = false →
          r = some o) ∧
      ((∀ i, i < busy_sink.nr_pages → ¬ free busy_sink i) →
        (∀ o p, busy_sink.old_page = some o → busy_sink.pages[o]? = some p → p.used = true) →
          r = none) ∧
      (∀ i, r = some i → ∃ p, busy_sink.pages[i]? = some p ∧
        s1 = { busy_sink with pages := busy_sink.pages.set i { p with used := true } }) ∧
      (r = none → s1 = busy_sink) :=
  get_page_first_fit_with_reclaim busy_sink (by decide) (by
    intro o ho
    have e : busy_sink.old_page = some 0 := by decide
    rw [e] at ho
    cases ho
    decide)

/-- Claim C3, counterexample.  A 640x480 source with square pixels on a display
of 801x601: no product or sum wraps, the branch "scale to width" is taken,
out_width is 801 rounded up to 802, xres - out_width wraps, and pos_x +
out_width exceeds the display width (and likewise for the height). -/
theorem geometry_outside_odd_display :
    ∃ g, setup_geometry 640 480 1 1 801 601 = some g ∧
      g.out_width = 802 ∧ g.pos_x = 2147483647 ∧ ¬ (g.pos_x + g.out_width ≤ 801) ∧
      ¬ (g.pos_y + g.out_height ≤ 601) := by
  decide

/-- Claim C3, as amended.  On a display whose width and height are positive
and even (32-bit values), for every source width and height and pixel aspect
ratio, the geometry setup computes satisfies pos_x + out_width <= xres and
pos_y + out_height <= yres; and a geometry is computed whenever the inputs are
positive and the products width * par_n and height * par_d are below 2^32. -/
theorem geometry_inside_even_display (width height par_n par_d : Int) (xres yres : Nat)
    (hx0 : 0 < xres) (hy0 : 0 < yres) (hx : xres < 4294967296) (hy : yres < 4294967296)
    (hxe : xres % 2 = 0) (hye : yres % 2 = 0) :
    (∀ g, setup_geometry width height par_n par_d xres yres = some g →
      g.pos_x + g.out_width ≤ xres ∧ g.pos_y + g.out_height ≤ yres) ∧
    (0 < width → 0 < height → 0 < par_n → 0 < par_d →
      width * par_n < 4294967296 → height * par_d < 4294967296 →
      ∃ g, setup_geometry width height par_n par_d xres yres = some g) := by
  constructor
  · intro g hg
    have := setup_geometry_inside width height par_n par_d xres yres g hx0 hy0 hx hy hxe hye hg
    exact ⟨this.2.2.1, this.2.2.2⟩
  · intro hw hh hn hd ha hb
    obtain ⟨_, g, _, hg, _⟩ := setup_geometry_total width height par_n par_d xres yres
      (to_unsigned_imul_ne_zero _ _ (Int.mul_pos hw hn) ha)
      (to_unsigned_imul_ne_zero _ _ (Int.mul_pos hh hd) hb) hx0 hy0 hx hy hxe hye
    exact ⟨g, hg⟩

/-- Claim C3, as amended: an instance, a 640x480 source with square pixels on a
display of 800x600. -/
theorem geometry_inside_even_display_witness :
    (∀ g, setup_geometry 640 480 1 1 800 600 = some g →
      g.pos_x + g.out_width ≤ 800 ∧ g.pos_y + g.out_height ≤ 600) ∧
    ((0 : Int) < 640 → (0 : Int) < 480 → (0 : Int) < 1 → (0 : Int) < 1 →
      (640 : Int) * 1 < 4294967296 → (480 : Int) * 1 < 4294967296 →
      ∃ g, setup_geometry 640 480 1 1 800 600 = some g) :=
  geometry_inside_even_display 640 480 1 1 800 600 (by decide) (by decide) (by decide)
    (by decide) (by decide) (by decide)

/-- Claim C4, counterexample.  For a 720x480 source with square pixels on a
1024x768 display the geometry of setup has out_height 684 and pos_y 42, not
682 and 43. -/
theorem geometry_720x480_is_not_682 :
    ∃ g, setup_geometry 720 480 1 1 1024 768 = some g ∧ g.out_height ≠ 682 ∧ g.pos_y ≠ 43 := by
  decide

/-- Claim C4, as amended.  For a 720x480 source with square pixels on a
1024x768 display, setup takes the branch "scale to width": the quotient of
line 220 is 683, which is within 768, and the geometry is out_width = 1024,
out_height = 684, pos_x = 0, pos_y = 42; setup on such a device writes these
values to plane_info. -/
theorem geometry_720x480_on_1024x768 :
    scale_to_width 720 480 1 1 1024 = some 683 ∧
      setup_scale 720 480 1 1 1024 768 = some (1024, 683) ∧
      setup_geometry 720 480 1 1 1024 768 =
        some { out_width := 1024, out_height := 684, pos_x := 0, pos_y := 42 } ∧
      ∃ s0, setup good_device started_sink caps_720x480 = some (true, s0) ∧
        s0.plane_info.out_width = 1024 ∧ s0.plane_info.out_height = 684 ∧
        s0.plane_info.pos_x = 0 ∧ s0.plane_info.pos_y = 42 :=
  ⟨by decide, by decide, by decide, ready_sink, by decide, by decide, by decide, by decide,
    by decide⟩

/-- Claim C5.  In an enabled session, when the loop of get_page finds no page
and get_page nevertheless returns a page (the reclaimed old_page), buffer_alloc
returns GST_FLOW_OK with a buffer on that page, and the requests it issues are
exactly one OMAPFB_WAITFORVSYNC. -/
theorem vsync_before_reclaimed_page (dev : device) (s s1 : gst_omapfb_sink)
    (offset size : Nat) (caps : GstCaps) (pg : Nat) (hen : s.enabled = true)
    (hscan : get_page_scan s 0 s.nr_pages = some none)
    (hget : get_page s = some (some pg, s1)) :
    s.old_page = some pg ∧ s1.ioctls = s.ioctls ∧
      ∃ buffer, (s1.pages[pg]?).map page.buf = some buffer.data ∧
        buffer_alloc dev s offset size caps =
          some (.GST_FLOW_OK, some buffer,
            { s1 with ioctls := s.ioctls ++ [.OMAPFB_WAITFORVSYNC] }) := by
  rcases Option.eq_none_or_eq_some s.old_page with ho | ⟨o, ho⟩
  · rw [get_page_of_scan_none_none s hscan ho] at hget
    simp at hget
  · cases hp : s.pages[o]? with
    | none => simp [get_page, hscan, ho, hp] at hget
    | some p =>
      by_cases hu : p.used = true
      · rw [get_page_of_scan_none_used s o p hscan ho hp hu] at hget
        simp at hget
      · have hu2 : p.used = false := by simpa using hu
        have e := get_page_of_scan_none_reclaim s o p hscan ho hp hu2
        rw [e] at hget
        simp only [Option.some.injEq, Prod.mk.injEq] at hget
        obtain ⟨h1, h2⟩ := hget
        subst h1 h2
        have hlt := (List.getElem?_eq_some_iff.mp hp).1
        refine ⟨ho, rfl, ⟨p.buf, size, caps⟩, ?_, ?_⟩
        · simp [List.getElem?_set, hlt]
        · simp [buffer_alloc, hen, e, ho, ioctl, List.getElem?_set, hlt]

/-- Claim C5: an instance.  The sink busy_sink is reached from ready_sink by
alloc, render of the frame in page 1, alloc, alloc; its next buffer_alloc
reclaims the old page 0. -/
theorem vsync_before_reclaimed_page_witness :
    run good_device ready_sink [alloc, .render frame_in_page1, alloc, alloc] = some busy_sink ∧
      busy_sink.old_page = some 0 ∧
      ({ busy_sink with pages := busy_sink.pages.set 0 ⟨0, 65536, true⟩ } : gst_omapfb_sink).ioctls
        = busy_sink.ioctls ∧
      ∃ buffer,
        (({ busy_sink with pages := busy_sink.pages.set 0 ⟨0, 65536, true⟩ } :
          gst_omapfb_sink).pages[0]?).map page.buf = some buffer.data ∧
        buffer_alloc good_device busy_sink 0 691200 caps_720x480 =
          some (.GST_FLOW_OK, some buffer,
            { ({ busy_sink with pages := busy_sink.pages.set 0 ⟨0, 65536, true⟩ } :
                gst_omapfb_sink) with
              ioctls := busy_sink.ioctls ++ [.OMAPFB_WAITFORVSYNC] }) :=
  ⟨by decide,
    vsync_before_reclaimed_page good_device busy_sink
      { busy_sink with pages := busy_sink.pages.set 0 ⟨0, 65536, true⟩ }
      0 691200 caps_720x480 0 (by decide) (by decide) (by decide)⟩

/-- Claim C6, counterexample.  On the session that start and setup establish
(four pages, none in use), four consecutive get_page calls return pages 1, 2,
3 and then no page: the fourth call does not return a fourth page. -/
theorem fourth_get_page_returns_no_page :
    setup good_device started_sink caps_720x480 = some (true, ready_sink) ∧
      ready_sink.nr_pages = 4 ∧
      ∃ r, get_pages 4 ready_sink = some r ∧ r.1 = [some 1, some 2, some 3, none] := by
  decide

/-- Claim C6, as amended.  On the sink a successful setup leaves (old_page
being NULL before it), with N = nr_pages > 0, N consecutive get_page calls
return: the first N - 1 calls return pages 1, 2, ..., N - 1 in this order
(every page but the current page 0, so N - 1 distinct pages) and the N-th call
returns no page. -/
theorem fresh_pool_gives_all_but_current (dev : device) (s s0 : gst_omapfb_sink)
    (caps : GstCaps) (h : setup dev s caps = some (true, s0)) (hold : s.old_page = none)
    (hn : 0 < s.nr_pages) :
    ∃ s1, get_pages s.nr_pages s0 =
      some ((List.range' 1 (s.nr_pages - 1)).map some ++ [none], s1) := by
  obtain ⟨ht, he⟩ := setup_taken dev s s0 caps h hold
  obtain ⟨s1, e⟩ := get_pages_taken (s.nr_pages - 1) s0 0 ht (by omega)
  have hN : s.nr_pages - 1 + 1 = s.nr_pages := by omega
  rw [hN] at e
  exact ⟨s1, e⟩

/-- Claim C6, as amended: an instance, the session of good_device with its four
pages. -/
theorem fresh_pool_gives_all_but_current_witness :
    ∃ s1, get_pages started_sink.nr_pages ready_sink =
      some ((List.range' 1 (started_sink.nr_pages - 1)).map some ++ [none], s1) :=
  fresh_pool_gives_all_but_current good_device started_sink ready_sink caps_720x480
    (by decide) (by decide) (by decide)

/-- Claim C7, counterexample.  On failing_device every pan and every
update-window request returns -1.  Rendering the frame in page 1 on the fresh
session issues both requests, both fail, and render returns GST_FLOW_OK. -/
theorem render_ok_despite_failed_requests :
    setup failing_device started_sink caps_720x480 = some (true, ready_sink) ∧
      ready_sink.ioctls.length = 9 ∧
      failing_device.ioctl_ret 9 (.FBIOPAN_DISPLAY 480) = -1 ∧
      failing_device.ioctl_ret 10 (.OMAPFB_UPDATE_WINDOW 1024 768) = -1 ∧
      ∃ r, render failing_device ready_sink frame_in_page1 = some r ∧
        r.1 = .GST_FLOW_OK ∧
        r.2.ioctls = ready_sink.ioctls ++ [.FBIOPAN_DISPLAY 480, .OMAPFB_UPDATE_WINDOW 1024 768] := by
  decide

/-- Claim C7, as amended.  On the sink of an enabled session, for every frame
and every device (so whatever the pan and update-window requests return),
render returns, and its return value is GST_FLOW_OK: the results of the two
requests are dropped and no failure is reported. -/
theorem render_returns_ok (dev : device) (s : gst_omapfb_sink) (buffer : GstBuffer)
    (h : wf s) : ∃ s2, render dev s buffer = some (.GST_FLOW_OK, s2) := by
  obtain ⟨s2, _, e, _⟩ := render_spec dev s buffer h
  exact ⟨s2, e⟩

/-- Claim C7, as amended: an instance, the frame in page 1 rendered on the
fresh session of failing_device. -/
theorem render_returns_ok_witness :
    ∃ s2, render failing_device ready_sink frame_in_page1 = some (.GST_FLOW_OK, s2) :=
  render_returns_ok failing_device ready_sink frame_in_page1
    (setup_wf good_device started_sink ready_sink caps_720x480 (by decide) (by decide)
      (by decide))

/-- Claim C8, counterexample.  The session negotiated for 720x480 is enabled;
setcaps with 640x480 caps returns true and leaves the sink as it is. -/
theorem setcaps_accepts_other_format :
    setup good_device started_sink caps_720x480 = some (true, ready_sink) ∧
      ready_sink.enabled = true ∧ ready_sink.overlay_info.xres = 720 ∧
      caps_640x480.width = 640 ∧
      setcaps good_device ready_sink caps_640x480 = some (true, ready_sink) := by
  decide

/-- Claim C8, as amended.  When the session is already enabled, setcaps returns
true and leaves the sink (and so the device) untouched for every caps, the
negotiated format and any other alike. -/
theorem setcaps_when_enabled (dev : device) (s : gst_omapfb_sink) (caps : GstCaps)
    (h : s.enabled = true) : setcaps dev s caps = some (true, s) := by
  simp [setcaps, h]

/-- Claim C8, as amended: an instance, the negotiated caps on the enabled
session. -/
theorem setcaps_when_enabled_witness :
    setcaps good_device ready_sink caps_720x480 = some (true, ready_sink) :=
  setcaps_when_enabled good_device ready_sink caps_720x480 (by decide)

/-- Claim C9.  For positive source width and height and pixel aspect ratio
whose products width * par_n and height * par_d are below 2^32, and a display
whose width and height are positive, even 32-bit values: setup computes the
first quotient q and a geometry g; when q exceeds the display height (the
branch "scale to height") the second quotient, out_width before it is rounded
up to even, is computed and is at most xres; and g satisfies out_width <= xres,
out_height <= yres, pos_x + out_width <= xres and pos_y + out_height <= yres. -/
theorem geometry_within_even_display (width height par_n par_d : Int) (xres yres : Nat)
    (hw : 0 < width) (hh : 0 < height) (hn : 0 < par_n) (hd : 0 < par_d)
    (hx0 : 0 < xres) (hy0 : 0 < yres) (hxe : xres % 2 = 0) (hye : yres % 2 = 0)
    (ha : width * par_n < 4294967296) (hb : height * par_d < 4294967296)
    (hx : xres < 4294967296) (hy : yres < 4294967296) :
    ∃ q g, scale_to_width width height par_n par_d xres = some q ∧
      setup_geometry width height par_n par_d xres yres = some g ∧
      (yres < q → ∃ ow, scale_to_height width height par_n par_d yres = some ow ∧ ow ≤ xres) ∧
      g.out_width ≤ xres ∧ g.out_height ≤ yres ∧
      g.pos_x + g.out_width ≤ xres ∧ g.pos_y + g.out_height ≤ yres := by
  obtain ⟨q, g, e1, e2, e3⟩ := setup_geometry_total width height par_n par_d xres yres
    (to_unsigned_imul_ne_zero _ _ (Int.mul_pos hw hn) ha)
    (to_unsigned_imul_ne_zero _ _ (Int.mul_pos hh hd) hb) hx0 hy0 hx hy hxe hye
  exact ⟨q, g, e1, e2, e3,
    setup_geometry_inside width height par_n par_d xres yres g hx0 hy0 hx hy hxe hye e2⟩

/-- Claim C9: an instance in the branch "scale to height", a 480x720 source
with square pixels on a 1024x768 display. -/
theorem geometry_within_even_display_witness :
    ∃ q g, scale_to_width 480 720 1 1 1024 = some q ∧
      setup_geometry 480 720 1 1 1024 768 = some g ∧
      (768 < q → ∃ ow, scale_to_height 480 720 1 1 768 = some ow ∧ ow ≤ 1024) ∧
      g.out_width ≤ 1024 ∧ g.out_height ≤ 768 ∧
      g.pos_x + g.out_width ≤ 1024 ∧ g.pos_y + g.out_height ≤ 768 :=
  geometry_within_even_display 480 720 1 1 1024 768 (by decide) (by decide) (by decide)
    (by decide) (by decide) (by decide) (by decide) (by decide) (by decide) (by decide)
    (by decide) (by decide)

/-- Claim C10, the code at the failing input.  On the fresh session the
producer obtains page 1 and its frame is rendered twice (preroll, then render),
which leaves cur_page = old_page = page 1; three more buffer_alloc calls take
pages 0, 2 and 3.  The next get_page finds no free page, reclaims old_page and
returns page 1, the current page, and buffer_alloc hands the memory of page 1
to the producer. -/
theorem reclaim_hands_out_current_page :
    setup good_device started_sink caps_720x480 = some (true, ready_sink) ∧
      ∃ s, run good_device ready_sink
          [alloc, .render frame_in_page1, .render frame_in_page1, alloc, alloc, alloc] = some s ∧
        s.cur_page = some 1 ∧ s.old_page = some 1 ∧
        (get_page s).map Prod.fst = some (some 1) ∧
        (buffer_alloc good_device s 0 691200 caps_720x480).map (fun r => r.2.1) =
          some (some frame_in_page1) := by
  decide

end Omapfb
